import Mathlib

/-!
Verification development for the web_analyzer repository (Go).

The definitions below are a shallow embedding of the page-analysis engine
in `internal/analyzer/analyzer.go`: the document-tree walker of
`FetchAndAnalyze`, the login-form heuristic `detectLoginForm`, and the
per-link probe logic of `checkLinkAccessibility`.  Network effects
(`http.Client.Do`) are modelled by an environment function from request
method to either a transport error string or an HTTP response; the HTML
parser dependency (`golang.org/x/net/html`) is modelled by an explicit
node tree with the same fields (`Type`, `DataAtom`, `Data`, `Attr`,
children).
-/

namespace WebAnalyzer

/-! ## String helpers

Executable models of the `strings` package functions the analyzer uses.
They operate on the character list underlying `String` so that concrete
witnesses evaluate inside the kernel.  `lowerChar`/`toLowerS` model
`strings.ToLower` on the ASCII range (the analyzer only lowercases tag
names, attribute values and URLs); `trimSpaceS` models
`strings.TrimSpace` for ASCII whitespace. -/

def lowerChar (c : Char) : Char :=
  if 'A' ≤ c ∧ c ≤ 'Z' then Char.ofNat (c.toNat + 32) else c

def toLowerS (s : String) : String := ⟨s.data.map lowerChar⟩

def isSpaceChar (c : Char) : Bool :=
  c == ' ' || c == '\t' || c == '\n' || c == '\r'

def trimSpaceS (s : String) : String :=
  ⟨((s.data.dropWhile isSpaceChar).reverse.dropWhile isSpaceChar).reverse⟩

/-- Models `strings.HasPrefix s p`. -/
def hasPrefixS (s p : String) : Bool := p.data.isPrefixOf s.data

/-- Models `strings.Contains s sub`. -/
def containsS (s sub : String) : Bool :=
  (List.range (s.data.length + 1)).any (fun i => sub.data.isPrefixOf (s.data.drop i))

/-! ## HTML node model

Mirrors `golang.org/x/net/html.Node`: a node has a `Type`
(element / text / doctype / document / comment), a `DataAtom` (the
interned tag name used for comparisons such as `n.DataAtom == atom.Title`,
modelled as the lowercase tag string), a `Data` string (tag name for
elements, text for text nodes, doctype name for doctype nodes), a list of
attributes, and children (the Go `FirstChild`/`NextSibling` chain). -/

inductive NodeType where
  | element
  | text
  | doctype
  | document
  | comment
deriving DecidableEq, BEq

structure HtmlAttr where
  key : String
  val : String

inductive HtmlNode where
  | node : NodeType → String → String → List HtmlAttr → List HtmlNode → HtmlNode

def HtmlNode.type : HtmlNode → NodeType
  | .node t _ _ _ _ => t

def HtmlNode.dataAtom : HtmlNode → String
  | .node _ a _ _ _ => a

def HtmlNode.data : HtmlNode → String
  | .node _ _ d _ _ => d

def HtmlNode.attrs : HtmlNode → List HtmlAttr
  | .node _ _ _ as _ => as

def HtmlNode.children : HtmlNode → List HtmlNode
  | .node _ _ _ _ cs => cs

mutual

/-- Document-order (preorder) listing of a subtree: the node itself, then
the preorder listings of its children left to right.  This is the visit
order of the recursive closures `f` in `FetchAndAnalyze` and
`detectLoginForm`, which process a node and then iterate
`FirstChild`/`NextSibling`. -/
def preorder : HtmlNode → List HtmlNode
  | .node t a d as cs => .node t a d as cs :: preorderList cs

def preorderList : List HtmlNode → List HtmlNode
  | [] => []
  | c :: cs => preorder c ++ preorderList cs

end

/-! ## Login-form heuristic (`detectLoginForm`, analyzer.go)

The Go function threads four boolean flags through a recursive traversal
of the form subtree.  `LoginSignals` is that flag state; `loginStep` is
the per-node flag update; `loginVisit`/`loginVisitList` mirror the
recursive closure `f`, including its child loop
`for c := node.FirstChild; c != nil && !hasSubmitButton; c = c.NextSibling`
which stops iterating children once `hasSubmitButton` is set. -/

structure LoginSignals where
  hasPasswordInput : Bool
  hasTextLikeInputNamedForLogin : Bool
  hasPinInput : Bool
  hasSubmitButton : Bool
deriving DecidableEq

/-- Flags computed from an input element's attribute list, mirroring the
attribute loop in `detectLoginForm`: each `type` attribute may set one of
`isPassword`/`isTextLike`/`isTel`/`isNumber` according to its lowercased
value, and `nameAttr` holds the lowercased value of the last `name`
attribute. -/
structure InputFlags where
  isPassword : Bool
  isTextLike : Bool
  isTel : Bool
  isNumber : Bool
  nameAttr : String

def inputFlagsStep (fl : InputFlags) (a : HtmlAttr) : InputFlags :=
  let fl :=
    if a.key == "type" then
      let typeVal := toLowerS a.val
      if typeVal == "password" then { fl with isPassword := true }
      else if typeVal == "text" || typeVal == "email" then { fl with isTextLike := true }
      else if typeVal == "tel" then { fl with isTel := true }
      else if typeVal == "number" then { fl with isNumber := true }
      else fl
    else fl
  if a.key == "name" then { fl with nameAttr := toLowerS a.val } else fl

def inputFlags (attrs : List HtmlAttr) : InputFlags :=
  attrs.foldl inputFlagsStep ⟨false, false, false, false, ""⟩

/-- Models the button branch of `detectLoginForm`: `typeAttr` is the
lowercased value of the first `type` attribute (the Go loop breaks on the
first match), and the button counts as submit when it is `"submit"` or
absent/empty (the default button type in a form). -/
def buttonTypeAttr : List HtmlAttr → String
  | [] => ""
  | a :: rest => if a.key == "type" then toLowerS a.val else buttonTypeAttr rest

def buttonIsSubmit (attrs : List HtmlAttr) : Bool :=
  buttonTypeAttr attrs == "submit" || buttonTypeAttr attrs == ""

/-- Per-node update of the four login signals, mirroring the body of the
closure `f` in `detectLoginForm`. -/
def loginStep (s : LoginSignals) (n : HtmlNode) : LoginSignals :=
  if n.type == .element then
    if n.dataAtom == "input" then
      let fl := inputFlags n.attrs
      let s := if fl.isPassword then { s with hasPasswordInput := true } else s
      let s :=
        if fl.isTextLike &&
            (containsS fl.nameAttr "user" || containsS fl.nameAttr "email" ||
             containsS fl.nameAttr "login" || containsS fl.nameAttr "pass") then
          { s with hasTextLikeInputNamedForLogin := true }
        else s
      let s :=
        if (fl.isTextLike || fl.isTel || fl.isNumber || fl.isPassword) &&
            containsS fl.nameAttr "pin" then
          { s with hasPinInput := true }
        else s
      s
    else if n.dataAtom == "button" then
      if buttonIsSubmit n.attrs then { s with hasSubmitButton := true } else s
    else s
  else s

mutual

def loginVisit (s : LoginSignals) : HtmlNode → LoginSignals
  | .node t a d as cs => loginVisitList (loginStep s (.node t a d as cs)) cs

def loginVisitList (s : LoginSignals) : List HtmlNode → LoginSignals
  | [] => s
  | c :: rest =>
    if s.hasSubmitButton then s
    else loginVisitList (loginVisit s c) rest

end

/-- Models `detectLoginForm`: collect the four signals over the form
subtree, then return
`(hasTextLikeInputNamedForLogin && hasPasswordInput && hasSubmitButton) ||
(hasPinInput && hasSubmitButton)`. -/
def detectLoginForm (formNode : HtmlNode) : Bool :=
  let s := loginVisit ⟨false, false, false, false⟩ formNode
  (s.hasTextLikeInputNamedForLogin && s.hasPasswordInput && s.hasSubmitButton) ||
    (s.hasPinInput && s.hasSubmitButton)

/-! Spec-side signal predicates: the four signals as properties of a single
node, and the signals of a subtree quantified over all descendants in
document order (the spec reads the heuristic as order-independent signal
collection).  These are used to compare `detectLoginForm` against the
specified formula. -/

def contributesPassword (n : HtmlNode) : Bool :=
  n.type == .element && n.dataAtom == "input" && (inputFlags n.attrs).isPassword

def contributesUserLike (n : HtmlNode) : Bool :=
  n.type == .element && n.dataAtom == "input" &&
    ((inputFlags n.attrs).isTextLike &&
      (containsS (inputFlags n.attrs).nameAttr "user" ||
       containsS (inputFlags n.attrs).nameAttr "email" ||
       containsS (inputFlags n.attrs).nameAttr "login" ||
       containsS (inputFlags n.attrs).nameAttr "pass"))

def contributesPin (n : HtmlNode) : Bool :=
  n.type == .element && n.dataAtom == "input" &&
    (((inputFlags n.attrs).isTextLike || (inputFlags n.attrs).isTel ||
      (inputFlags n.attrs).isNumber || (inputFlags n.attrs).isPassword) &&
      containsS (inputFlags n.attrs).nameAttr "pin")

def isSubmitButton (n : HtmlNode) : Bool :=
  n.type == .element && n.dataAtom == "button" && buttonIsSubmit n.attrs

/-- Signals of a form subtree collected over all descendants, as the spec
describes them (order irrelevant). -/
def specSignals (formNode : HtmlNode) : LoginSignals :=
  ⟨(preorder formNode).any contributesPassword,
   (preorder formNode).any contributesUserLike,
   (preorder formNode).any contributesPin,
   (preorder formNode).any isSubmitButton⟩

/-- Login-form formula of the spec, over all-descendant signals:
(password AND user-like AND submit) OR (pin AND submit). -/
def specLoginForm (formNode : HtmlNode) : Bool :=
  let s := specSignals formNode
  (s.hasPasswordInput && s.hasTextLikeInputNamedForLogin && s.hasSubmitButton) ||
    (s.hasPinInput && s.hasSubmitButton)

/-- Prefix of a node list actually processed by the pruned traversal: all
nodes up to and including the first submit button (the whole list when no
submit button occurs). -/
def processedPrefix : List HtmlNode → List HtmlNode
  | [] => []
  | x :: xs => if isSubmitButton x then [x] else x :: processedPrefix xs

/-- Flat reformulation of the pruned traversal: fold `loginStep` over a
node list, stopping as soon as the submit flag is set. -/
def loginFoldStop (s : LoginSignals) : List HtmlNode → LoginSignals
  | [] => s
  | x :: xs => if s.hasSubmitButton then s else loginFoldStop (loginStep s x) xs

/-! ## URL model

Models the slice of `net/url` the analyzer uses: `url.Parse(pageURL)` for
the base URL and `baseDomain.Parse(hrefAttr)` (parse + reference
resolution) for links.  A URL is reduced to scheme, host, and an opaque
remainder, since the analyzer only ever reads `Scheme` and `Host` and
re-serializes with `String()`.  Faithful points kept from `net/url`: the
scheme is lowercased by parsing, the host is NOT lowercased (it is kept
exactly as written), parsing fails on ASCII control characters and on a
leading colon, and a reference with its own scheme resolves to itself
while other references inherit the base scheme (and host, unless the
reference carries a `//authority`).  Path/query merging is abstracted
into the opaque `rest` field, which no analyzer decision reads. -/

structure GoUrl where
  scheme : String
  host : String
  rest : String
deriving DecidableEq

def isSchemeChar (c : Char) : Bool :=
  c.isAlpha || c.isDigit || c == '+' || c == '-' || c == '.'

/-- Splits a character list at its first colon, if any. -/
def splitAtColon : List Char → Option (List Char × List Char)
  | [] => none
  | c :: cs =>
    if c == ':' then some ([], cs)
    else
      match splitAtColon cs with
      | some (a, b) => some (c :: a, b)
      | none => none

def validScheme : List Char → Bool
  | [] => false
  | c :: cs => c.isAlpha && cs.all isSchemeChar

def isHostEnd (c : Char) : Bool := c == '/' || c == '?' || c == '#'

def hostOf (body : List Char) : String := ⟨body.takeWhile (fun c => !isHostEnd c)⟩

def restOf (body : List Char) : String := ⟨body.dropWhile (fun c => !isHostEnd c)⟩

/-- Models `url.Parse`. -/
def parseUrl (s : String) : Option GoUrl :=
  if s.data.any (fun c => c.toNat < 32 || c.toNat == 127) then none
  else
    match splitAtColon s.data with
    | some ([], _) => none
    | some (sch, rest) =>
      if validScheme sch then
        if ['/', '/'].isPrefixOf rest then
          let body := rest.drop 2
          some ⟨⟨sch.map lowerChar⟩, hostOf body, restOf body⟩
        else
          some ⟨⟨sch.map lowerChar⟩, "", ⟨rest⟩⟩
      else
        if ['/', '/'].isPrefixOf s.data then
          let body := s.data.drop 2
          some ⟨"", hostOf body, restOf body⟩
        else some ⟨"", "", s⟩
    | none =>
      if ['/', '/'].isPrefixOf s.data then
        let body := s.data.drop 2
        some ⟨"", hostOf body, restOf body⟩
      else some ⟨"", "", s⟩

/-- Models `baseDomain.Parse(ref)`: parse the reference, then resolve it
against the base.  A reference with its own scheme stands alone; a
scheme-less reference with an authority (`//host/...`) takes the base
scheme; any other reference takes the base scheme and host. -/
def resolveRef (base : GoUrl) (ref : String) : Option GoUrl :=
  match parseUrl ref with
  | none => none
  | some u =>
    if u.scheme != "" then some u
    else if u.host != "" then some ⟨base.scheme, u.host, u.rest⟩
    else some ⟨base.scheme, base.host, u.rest⟩

/-- Models `absoluteLink.String()` to the precision the analyzer needs
(the serialized link is only carried along into the probe list). -/
def urlString (u : GoUrl) : String :=
  (if u.scheme != "" then u.scheme ++ ":" else "") ++
    (if u.host != "" then "//" ++ u.host else "") ++ u.rest

/-! ## Doctype classifier

Models the `html.DoctypeNode` branch of the traversal in
`FetchAndAnalyze`: extract trimmed `public`/`system` attribute values,
lowercase the doctype name, and run the version chain.  Returns `none`
when the branch leaves `result.HTMLVersion` untouched (empty doctype
name). -/

structure DoctypeIds where
  publicId : String
  systemId : String

def doctypeIds (attrs : List HtmlAttr) : DoctypeIds :=
  attrs.foldl
    (fun ids a =>
      if a.key == "public" then { ids with publicId := trimSpaceS a.val }
      else if a.key == "system" then { ids with systemId := trimSpaceS a.val }
      else ids)
    ⟨"", ""⟩

def doctypeVersion (data : String) (attrs : List HtmlAttr) : Option String :=
  let ids := doctypeIds attrs
  let publicID := ids.publicId
  let systemID := ids.systemId
  let doctypeName := toLowerS data
  if doctypeName == "html" then
    if publicID == "" && systemID == "" then some "HTML5"
    else if containsS publicID "XHTML 1.0 Strict" then some "XHTML 1.0 Strict"
    else if containsS publicID "XHTML 1.0 Transitional" then some "XHTML 1.0 Transitional"
    else if containsS publicID "HTML 4.01//EN" && containsS publicID "Strict" then
      some "HTML 4.01 Strict"
    else if containsS publicID "HTML 4.01 Transitional//EN" then some "HTML 4.01 Transitional"
    else if containsS publicID "HTML 4.01//EN" && containsS systemID "strict.dtd" then
      some "HTML 4.01 Strict"
    else if containsS publicID "HTML 4.01 Transitional//EN" && containsS systemID "loose.dtd" then
      some "HTML 4.01 Transitional"
    else if publicID != "" then some "Unknown HTML (with Public ID)"
    else some "HTML (Unknown Version)"
  else if doctypeName != "" then some ("Unknown Doctype (" ++ doctypeName ++ ")")
  else none

/-! ## Document extractor

State accumulated by the traversal closure `f` in `FetchAndAnalyze`,
together with the collected probe list `linksToTest`.  The Go headings
map is modelled as an association list in first-insertion order. -/

structure ExtractState where
  pageTitle : String
  headingsCount : List (String × Nat)
  internalLinksCount : Nat
  externalLinksCount : Nat
  containsLoginForm : Bool
  htmlVersion : String
  linksToTest : List String
deriving DecidableEq

def initExtractState : ExtractState := ⟨"", [], 0, 0, false, "", []⟩

def bumpHeading : List (String × Nat) → String → List (String × Nat)
  | [], k => [(k, 1)]
  | (a, v) :: rest, k => if a == k then (a, v + 1) :: rest else (a, v) :: bumpHeading rest k

def isHeadingAtom (a : String) : Bool :=
  a == "h1" || a == "h2" || a == "h3" || a == "h4" || a == "h5" || a == "h6"

/-- Models the href-collection loop: the trimmed value of the last `href`
attribute wins (the Go loop has no break), empty when no `href` attribute
is present. -/
def effectiveHref (attrs : List HtmlAttr) : String :=
  attrs.foldl (fun h a => if a.key == "href" then trimSpaceS a.val else h) ""

/-- Models the skip condition: empty, fragment-only, or
`javascript:`/`mailto:`/`tel:` (prefixes compared on the lowercased
value). -/
def skipHref (h : String) : Bool :=
  h == "" || hasPrefixS h "#" ||
    hasPrefixS (toLowerS h) "javascript:" ||
    hasPrefixS (toLowerS h) "mailto:" ||
    hasPrefixS (toLowerS h) "tel:"

/-- Models the classification test
`absoluteLink.Host == baseDomain.Host && absoluteLink.Scheme == baseDomain.Scheme`
(exact Go string equality on both fields). -/
def linkIsInternal (base u : GoUrl) : Bool :=
  u.host == base.host && u.scheme == base.scheme

/-- Models the anchor/link branch of the traversal: take the effective
href, skip excluded values, resolve against the base (a resolution
failure is logged and dropped), classify internal/external, and append
the serialized link to the probe list. -/
def processLink (base : GoUrl) (s : ExtractState) (n : HtmlNode) : ExtractState :=
  let hrefAttr := effectiveHref n.attrs
  if hrefAttr != "" then
    if skipHref hrefAttr then s
    else
      match resolveRef base hrefAttr with
      | none => s
      | some u =>
        let linkStr := urlString u
        let s :=
          if linkIsInternal base u then
            { s with internalLinksCount := s.internalLinksCount + 1 }
          else { s with externalLinksCount := s.externalLinksCount + 1 }
        { s with linksToTest := s.linksToTest ++ [linkStr] }
  else s

/-- Step 1 of the element branch: record the trimmed text of a title
element whose first child is a text node (overwriting any earlier
title). -/
def stepTitle (s : ExtractState) (n : HtmlNode) : ExtractState :=
  if n.dataAtom == "title" then
    match n.children with
    | c :: _ => if c.type == .text then { s with pageTitle := trimSpaceS c.data } else s
    | [] => s
  else s

/-- Step 2 of the element branch: bump the counter for a heading tag. -/
def stepHeadings (s : ExtractState) (n : HtmlNode) : ExtractState :=
  if isHeadingAtom n.dataAtom then
    { s with headingsCount := bumpHeading s.headingsCount n.data }
  else s

/-- Step 3 of the element branch: link counting and collection for
anchor and link elements. -/
def stepLinks (base : GoUrl) (s : ExtractState) (n : HtmlNode) : ExtractState :=
  if n.dataAtom == "a" || n.dataAtom == "link" then processLink base s n else s

/-- Step 4 of the element branch: run the login-form heuristic on a form
element unless a login form was already confirmed. -/
def stepForm (s : ExtractState) (n : HtmlNode) : ExtractState :=
  if n.dataAtom == "form" then
    if !s.containsLoginForm then { s with containsLoginForm := detectLoginForm n } else s
  else s

/-- Doctype branch: set the version label unless the classifier leaves
it untouched. -/
def stepDoctype (s : ExtractState) (n : HtmlNode) : ExtractState :=
  match doctypeVersion n.data n.attrs with
  | some v => { s with htmlVersion := v }
  | none => s

/-- Per-node body of the traversal closure `f` in `FetchAndAnalyze`: the
four sequential element updates (title, headings, links, login form),
or the doctype classification. -/
def extractStep (base : GoUrl) (s : ExtractState) (n : HtmlNode) : ExtractState :=
  if n.type == .element then stepForm (stepLinks base (stepHeadings (stepTitle s n) n) n) n
  else if n.type == .doctype then stepDoctype s n
  else s

mutual

def extractVisit (base : GoUrl) (s : ExtractState) : HtmlNode → ExtractState
  | .node t a d as cs => extractVisitList base (extractStep base s (.node t a d as cs)) cs

def extractVisitList (base : GoUrl) (s : ExtractState) : List HtmlNode → ExtractState
  | [] => s
  | c :: rest => extractVisitList base (extractVisit base s c) rest

end

/-- The extraction phase plus the post-traversal version fallback:
`if result.HTMLVersion == "" { result.HTMLVersion = "Unknown or No Doctype" }`. -/
def analyzeDocument (base : GoUrl) (doc : HtmlNode) : ExtractState :=
  let s := extractVisit base initExtractState doc
  if s.htmlVersion == "" then { s with htmlVersion := "Unknown or No Doctype" } else s

/-! ## Link accessibility checker

`checkLinkAccessibility` probes each link with a 10s-timeout HEAD,
falling back to GET in two places.  The network is modelled by an
environment assigning each issued request method either a transport
error string (a non-nil error from `Client.Do`, which in Go is always a
`*url.Error`; its text is the string) or an HTTP response.  `probeLink`
returns the list of requests the goroutine body issues for one link
together with the record it appends, if any.  The `http.NewRequest`
error branches are omitted: with the constant methods and an
already-serialized absolute URL, request construction cannot fail. -/

structure InaccessibleLinkInfo where
  url : String
  statusCode : Nat
  error : String
deriving DecidableEq

inductive ReqMethod where
  | head
  | get
deriving DecidableEq, BEq

structure HttpResponse where
  statusCode : Nat
  status : String
deriving DecidableEq

abbrev NetEnv := ReqMethod → Except String HttpResponse

def probeLink (l : String) (env : NetEnv) : List ReqMethod × Option InaccessibleLinkInfo :=
  match env .head with
  | .error errText =>
    if containsS (toLowerS errText) "timeout" || containsS (toLowerS errText) "refused" then
      ([.head], some ⟨l, 0, errText⟩)
    else
      match env .get with
      | .error errGet => ([.head, .get], some ⟨l, 0, errGet⟩)
      | .ok respGet =>
        ([.head, .get],
          if respGet.statusCode ≥ 400 then some ⟨l, respGet.statusCode, respGet.status⟩
          else none)
  | .ok resp =>
    if resp.statusCode == 405 then
      match env .get with
      | .error errGet => ([.head, .get], some ⟨l, 0, errGet⟩)
      | .ok respGet =>
        ([.head, .get],
          if respGet.statusCode ≥ 400 then some ⟨l, respGet.statusCode, respGet.status⟩
          else none)
    else
      ([.head], if resp.statusCode ≥ 400 then some ⟨l, resp.statusCode, resp.status⟩ else none)

/-- Models `checkLinkAccessibility`: every link is probed and the records
of unreachable links are collected.  The Go version collects in
concurrent completion order, which is unspecified; the model uses input
order. -/
def checkLinkAccessibility (envs : String → NetEnv) (links : List String) :
    List InaccessibleLinkInfo :=
  links.filterMap (fun l => (probeLink l (envs l)).2)

/-! ## Analysis orchestrator (`FetchAndAnalyze`) -/

structure AnalysisError where
  message : String
  statusCode : Nat
deriving DecidableEq

structure AnalysisResult where
  htmlVersion : String
  pageTitle : String
  headingsCount : List (String × Nat)
  internalLinksCount : Nat
  externalLinksCount : Nat
  inaccessibleLinks : List InaccessibleLinkInfo
  containsLoginForm : Bool
deriving DecidableEq

inductive BodyOutcome where
  | parseFail (msg : String)
  | parsed (doc : HtmlNode)

/-- Outcome of the initial `http.Get(pageURL)`: a network-level error
(the text of the returned error) or a response with status, status text,
content type, and a body handed to the HTML parser. -/
inductive FetchOutcome where
  | netErr (msg : String)
  | response (statusCode : Nat) (status : String) (contentType : String) (body : BodyOutcome)

/-- Models `FetchAndAnalyze`.  The Go signature
`(*AnalysisResult, error)` is kept as an explicit pair of options so that
the mutual-exclusion contract is a provable property rather than a
consequence of the modelling type.  All effect outcomes (page fetch,
per-link probes) are inputs. -/
def FetchAndAnalyze (pageURL : String) (fetch : FetchOutcome) (envs : String → NetEnv) :
    Option AnalysisResult × Option AnalysisError :=
  match fetch with
  | .netErr msg => (none, some ⟨"Failed to fetch URL: " ++ msg, 0⟩)
  | .response statusCode status contentType body =>
    if statusCode ≥ 400 then (none, some ⟨"URL returned HTTP error: " ++ status, statusCode⟩)
    else if !containsS (toLowerS contentType) "text/html" then
      (none, some ⟨"URL is not an HTML page. Content-Type: " ++ contentType, statusCode⟩)
    else
      match body with
      | .parseFail msg => (none, some ⟨"Failed to parse HTML: " ++ msg, statusCode⟩)
      | .parsed doc =>
        match parseUrl pageURL with
        | none => (none, some ⟨"Failed to parse base URL for link analysis", statusCode⟩)
        | some baseDomain =>
          let s := analyzeDocument baseDomain doc
          let inacc :=
            if s.linksToTest.length > 0 then checkLinkAccessibility envs s.linksToTest
            else []
          (some ⟨s.htmlVersion, s.pageTitle, s.headingsCount, s.internalLinksCount,
              s.externalLinksCount, inacc, s.containsLoginForm⟩,
            none)

/-! ## Spec-side helper definitions used by the claim statements -/

/-- Suffix of a node list that the pruned login traversal never visits:
everything after the first submit button. -/
def droppedSuffix : List HtmlNode → List HtmlNode
  | [] => []
  | x :: xs => if isSubmitButton x then xs else droppedSuffix xs

/-- Whether a node contributes any of the three input signals of the
login heuristic. -/
def contributesLoginInput (n : HtmlNode) : Bool :=
  contributesPassword n || contributesUserLike n || contributesPin n

/-- Whether a form subtree lists all its login-relevant inputs before its
first submit button in document order (trivially true when there is no
submit button). -/
def submitRespectsOrder (formNode : HtmlNode) : Bool :=
  (droppedSuffix (preorder formNode)).all (fun x => !contributesLoginInput x)

/-- Whether a node is an anchor or link-reference element. -/
def isLinkNode (n : HtmlNode) : Bool :=
  n.type == .element && (n.dataAtom == "a" || n.dataAtom == "link")

/-- Whether a node is a title element whose first child is a text node. -/
def isTitleWithText (n : HtmlNode) : Bool :=
  n.type == .element && n.dataAtom == "title" &&
    (match n.children with
     | c :: _ => c.type == .text
     | [] => false)

/-- Trimmed text of a title element's first child. -/
def titleTextOf (n : HtmlNode) : String :=
  match n.children with
  | c :: _ => trimSpaceS c.data
  | [] => ""

/-- Spec-side title semantics after correction: the trimmed text of the
last title element (with a text child) in document order, empty when
there is none. -/
def lastTitleText (doc : HtmlNode) : String :=
  match ((preorder doc).filter isTitleWithText).getLast? with
  | some n => titleTextOf n
  | none => ""

/-- Title semantics as the claim states it: the trimmed text of the
first title element (with a text child) in document order, empty when
there is none. -/
def firstTitleText (doc : HtmlNode) : String :=
  match ((preorder doc).filter isTitleWithText).head? with
  | some n => titleTextOf n
  | none => ""

/-- Whether a document tree contains no doctype node. -/
def hasNoDoctype (doc : HtmlNode) : Bool :=
  (preorder doc).all (fun n => !(n.type == .doctype))

/-- Whether every anchor/link element of a document carries an href that
the analyzer excludes (empty after trimming, fragment-only, or a
javascript:/mailto:/tel: target). -/
def allLinksSkipped (doc : HtmlNode) : Bool :=
  (preorder doc).all (fun n => !isLinkNode n || skipHref (effectiveHref n.attrs))

/-! ## Concrete fixtures for witnesses and counterexamples -/

def mkText (t : String) : HtmlNode := .node .text "" t [] []

def mkInput (ty nm : String) : HtmlNode :=
  .node .element "input" "input" [⟨"type", ty⟩, ⟨"name", nm⟩] []

def mkSubmitButton : HtmlNode :=
  .node .element "button" "button" [⟨"type", "submit"⟩] [mkText "Login"]

def mkForm (cs : List HtmlNode) : HtmlNode := .node .element "form" "form" [] cs

def mkTitle (t : String) : HtmlNode := .node .element "title" "title" [] [mkText t]

def mkAnchor (href : String) : HtmlNode := .node .element "a" "a" [⟨"href", href⟩] []

/-- Wraps body children into a document tree the way `html.Parse` shapes
one: document root, `html` element, `body` element. -/
def mkDoc (bodyChildren : List HtmlNode) : HtmlNode :=
  .node .document "" "" []
    [.node .element "html" "html" [] [.node .element "body" "body" [] bodyChildren]]

/-- Scenario-B style login form: user-named text input, password input,
submit button, in that order. -/
def cLoginForm : HtmlNode :=
  mkForm [mkInput "text" "username", mkInput "password" "password", mkSubmitButton]

/-- Scenario-C style form: only a password input named `secret` plus a
submit button. -/
def cPasswordOnlyForm : HtmlNode :=
  mkForm [mkInput "password" "secret", mkSubmitButton]

/-- Form whose submit button precedes the credential inputs in document
order. -/
def cSubmitFirstForm : HtmlNode :=
  mkForm [mkSubmitButton, mkInput "password" "password", mkInput "text" "username"]

/-- Document carrying two title elements. -/
def cTwoTitleDoc : HtmlNode :=
  .node .document "" "" []
    [.node .element "html" "html" []
      [.node .element "head" "head" [] [mkTitle " First Title ", mkTitle " Second Title "],
       .node .element "body" "body" [] []]]

/-- Document with no doctype node. -/
def cNoDoctypeDoc : HtmlNode := mkDoc [.node .element "h1" "h1" [] [mkText "Hi"]]

/-- Document whose every link target is excluded by the href filter. -/
def cSkippedLinksDoc : HtmlNode :=
  mkDoc [mkAnchor "#top", mkAnchor "mailto:a@b.example", mkAnchor "javascript:void(0)",
    mkAnchor "tel:+123", mkAnchor "   "]

/-- Base page URL `http://example.com/page` as a parsed URL. -/
def cBase : GoUrl := ⟨"http", "example.com", "/page"⟩

/-- A mid-traversal extractor state with links already counted and
collected, as it stands when the walker reaches a later node of a mixed
document. -/
def cMidState : ExtractState :=
  ⟨"T", [("h1", 1)], 1, 2, false, "", ["http://example.com/in", "http://other.example/x"]⟩

/-- Document mixing countable links with every category of excluded
href (fragment-only, mailto, tel, javascript, whitespace-only). -/
def cMixedDoc : HtmlNode :=
  mkDoc [mkAnchor "/in", mkAnchor "#frag", mkAnchor "mailto:a@b.example",
    mkAnchor "http://other.example/x", mkAnchor "tel:+123", mkAnchor "javascript:void(0)",
    mkAnchor "   "]

/-- Document with a single absolute link whose host differs from the base
host only by letter case. -/
def cUpperHostDoc : HtmlNode := mkDoc [mkAnchor "http://EXAMPLE.com/x"]

/-! ## Lemmas: login-form traversal -/

theorem loginStep_password (s : LoginSignals) (n : HtmlNode) :
    (loginStep s n).hasPasswordInput = (s.hasPasswordInput || contributesPassword n) := by
  rcases s with ⟨p, u, pi, sb⟩
  simp only [loginStep, contributesPassword]
  split_ifs <;> simp_all

theorem loginStep_userlike (s : LoginSignals) (n : HtmlNode) :
    (loginStep s n).hasTextLikeInputNamedForLogin =
      (s.hasTextLikeInputNamedForLogin || contributesUserLike n) := by
  rcases s with ⟨p, u, pi, sb⟩
  simp only [loginStep, contributesUserLike]
  split_ifs <;> simp_all

theorem loginStep_pin (s : LoginSignals) (n : HtmlNode) :
    (loginStep s n).hasPinInput = (s.hasPinInput || contributesPin n) := by
  rcases s with ⟨p, u, pi, sb⟩
  simp only [loginStep, contributesPin]
  split_ifs <;> simp_all

theorem loginStep_submit (s : LoginSignals) (n : HtmlNode) :
    (loginStep s n).hasSubmitButton = (s.hasSubmitButton || isSubmitButton n) := by
  rcases s with ⟨p, u, pi, sb⟩
  simp only [loginStep, isSubmitButton]
  split_ifs <;> simp_all

theorem loginFoldStop_of_submit (s : LoginSignals) (l : List HtmlNode)
    (h : s.hasSubmitButton = true) : loginFoldStop s l = s := by
  cases l <;> simp [loginFoldStop, h]

theorem loginFoldStop_append (s : LoginSignals) (l1 l2 : List HtmlNode) :
    loginFoldStop s (l1 ++ l2) = loginFoldStop (loginFoldStop s l1) l2 := by
  induction l1 generalizing s with
  | nil => simp [loginFoldStop]
  | cons x xs ih =>
    by_cases h : s.hasSubmitButton = true
    · simp [loginFoldStop, h, loginFoldStop_of_submit _ _ h]
    · simp only [Bool.not_eq_true] at h
      simp [loginFoldStop, h, ih]

theorem loginFoldStop_eq_foldl (s : LoginSignals) (l : List HtmlNode)
    (h : s.hasSubmitButton = false) :
    loginFoldStop s l = List.foldl loginStep s (processedPrefix l) := by
  induction l generalizing s with
  | nil => simp [loginFoldStop, processedPrefix]
  | cons x xs ih =>
    simp only [loginFoldStop, processedPrefix, h]
    by_cases hx : isSubmitButton x = true
    · have hs : (loginStep s x).hasSubmitButton = true := by
        simp [loginStep_submit, hx]
      simp [hx, loginFoldStop_of_submit _ _ hs]
    · simp only [Bool.not_eq_true] at hx
      have hs : (loginStep s x).hasSubmitButton = false := by
        simp [loginStep_submit, hx, h]
      simp [hx, ih _ hs]

theorem foldl_loginStep_password (s : LoginSignals) (l : List HtmlNode) :
    (List.foldl loginStep s l).hasPasswordInput =
      (s.hasPasswordInput || l.any contributesPassword) := by
  induction l generalizing s with
  | nil => simp
  | cons x xs ih => simp [ih, loginStep_password, Bool.or_assoc]

theorem foldl_loginStep_userlike (s : LoginSignals) (l : List HtmlNode) :
    (List.foldl loginStep s l).hasTextLikeInputNamedForLogin =
      (s.hasTextLikeInputNamedForLogin || l.any contributesUserLike) := by
  induction l generalizing s with
  | nil => simp
  | cons x xs ih => simp [ih, loginStep_userlike, Bool.or_assoc]

theorem foldl_loginStep_pin (s : LoginSignals) (l : List HtmlNode) :
    (List.foldl loginStep s l).hasPinInput = (s.hasPinInput || l.any contributesPin) := by
  induction l generalizing s with
  | nil => simp
  | cons x xs ih => simp [ih, loginStep_pin, Bool.or_assoc]

theorem foldl_loginStep_submit (s : LoginSignals) (l : List HtmlNode) :
    (List.foldl loginStep s l).hasSubmitButton =
      (s.hasSubmitButton || l.any isSubmitButton) := by
  induction l generalizing s with
  | nil => simp
  | cons x xs ih => simp [ih, loginStep_submit, Bool.or_assoc]

mutual

theorem loginVisit_eq (s : LoginSignals) (n : HtmlNode) (h : s.hasSubmitButton = false) :
    loginVisit s n = loginFoldStop s (preorder n) := by
  cases n with
  | node t a d as cs =>
    rw [loginVisit, preorder, loginVisitList_eq]
    simp [loginFoldStop, h]

theorem loginVisitList_eq (s : LoginSignals) (cs : List HtmlNode) :
    loginVisitList s cs = loginFoldStop s (preorderList cs) := by
  match cs with
  | [] => rw [loginVisitList, preorderList]; rfl
  | c :: rest =>
    rw [loginVisitList, preorderList]
    by_cases h : s.hasSubmitButton = true
    · rw [if_pos h, loginFoldStop_of_submit _ _ h]
    · simp only [Bool.not_eq_true] at h
      rw [if_neg (by simp [h]), loginVisitList_eq (loginVisit s c) rest,
        loginVisit_eq s c h, loginFoldStop_append]

end

/-! ## Lemmas: processed prefix vs full signal collection -/

theorem processedPrefix_append_dropped (l : List HtmlNode) :
    processedPrefix l ++ droppedSuffix l = l := by
  induction l with
  | nil => rfl
  | cons x xs ih =>
    by_cases hx : isSubmitButton x = true <;>
      simp [processedPrefix, droppedSuffix, hx, ih]

theorem any_submit_processedPrefix (l : List HtmlNode) :
    (processedPrefix l).any isSubmitButton = l.any isSubmitButton := by
  induction l with
  | nil => rfl
  | cons x xs ih =>
    by_cases hx : isSubmitButton x = true <;> simp [processedPrefix, hx, ih]

theorem any_signal_processedPrefix (l : List HtmlNode) (P : HtmlNode → Bool)
    (himp : ∀ x, P x = true → contributesLoginInput x = true)
    (h : (droppedSuffix l).all (fun x => !contributesLoginInput x) = true) :
    (processedPrefix l).any P = l.any P := by
  have hds : (droppedSuffix l).any P = false := by
    rw [List.any_eq_false]
    intro x hx
    have := (List.all_eq_true.mp h) x hx
    intro hPx
    rw [himp x hPx] at this
    simp at this
  conv_rhs => rw [← processedPrefix_append_dropped l]
  rw [List.any_append, hds, Bool.or_false]

/-- The heuristic's result as the formula over the signals it actually
collects: the pruned traversal processes exactly the preorder prefix up
to and including the first submit button. -/
theorem detectLoginForm_collected (n : HtmlNode) :
    detectLoginForm n =
      (((processedPrefix (preorder n)).any contributesUserLike &&
          (processedPrefix (preorder n)).any contributesPassword &&
          (processedPrefix (preorder n)).any isSubmitButton) ||
        ((processedPrefix (preorder n)).any contributesPin &&
          (processedPrefix (preorder n)).any isSubmitButton)) := by
  unfold detectLoginForm
  rw [loginVisit_eq _ _ rfl, loginFoldStop_eq_foldl _ _ rfl]
  simp [foldl_loginStep_password, foldl_loginStep_userlike, foldl_loginStep_pin,
    foldl_loginStep_submit]

/-! ## Claim C1 -/

/-- C1 (counterexample): the login-form heuristic is not the stated
function of the subtree's descendant signals.  For a form whose submit
button precedes the credential inputs, the subtree has the
password-type, user-like-name and submit-button signals (so the claimed
formula — and `specLoginForm`, its transcription — yields true), yet
`detectLoginForm` returns false: its traversal stops visiting further
nodes once the submit button is found. -/
theorem detectLoginForm_claim_counterexample :
    detectLoginForm cSubmitFirstForm = false ∧
      (preorder cSubmitFirstForm).any contributesPassword = true ∧
      (preorder cSubmitFirstForm).any contributesUserLike = true ∧
      (preorder cSubmitFirstForm).any isSubmitButton = true ∧
      specLoginForm cSubmitFirstForm = true := by decide

/-- C1 (amended): for every form subtree in which no
password/user-like/pin input occurs after the first submit button in
document order (in particular, every form with its submit button last,
and every form without a submit button), the heuristic returns true iff
the descendant signals satisfy (password AND user-like AND submit) OR
(pin AND submit).  A password-only form with a submit button and no
user-like or pin-named field therefore yields false. -/
theorem detectLoginForm_iff_signals (n : HtmlNode) (h : submitRespectsOrder n = true) :
    detectLoginForm n = specLoginForm n := by
  rw [detectLoginForm_collected]
  unfold specLoginForm specSignals
  unfold submitRespectsOrder at h
  rw [any_signal_processedPrefix _ contributesPassword
      (fun x hx => by simp [contributesLoginInput, hx]) h,
    any_signal_processedPrefix _ contributesUserLike
      (fun x hx => by simp [contributesLoginInput, hx]) h,
    any_signal_processedPrefix _ contributesPin
      (fun x hx => by simp [contributesLoginInput, hx]) h,
    any_submit_processedPrefix]
  simp [Bool.and_comm]

/-- C1 (witness): the amended theorem applied to the scenario-B login
form (user-named text input, password input, submit button) and to the
scenario-C password-only form. -/
theorem detectLoginForm_iff_signals_witness :
    (submitRespectsOrder cLoginForm = true ∧
        detectLoginForm cLoginForm = specLoginForm cLoginForm ∧
        detectLoginForm cLoginForm = true) ∧
      (submitRespectsOrder cPasswordOnlyForm = true ∧
        detectLoginForm cPasswordOnlyForm = specLoginForm cPasswordOnlyForm ∧
        detectLoginForm cPasswordOnlyForm = false) :=
  ⟨⟨by decide, detectLoginForm_iff_signals cLoginForm (by decide), by decide⟩,
    ⟨by decide, detectLoginForm_iff_signals cPasswordOnlyForm (by decide), by decide⟩⟩

/-! ## Lemmas: document extractor -/

mutual

theorem extractVisit_eq (base : GoUrl) (s : ExtractState) (n : HtmlNode) :
    extractVisit base s n = List.foldl (extractStep base) s (preorder n) := by
  cases n with
  | node t a d as cs =>
    rw [extractVisit, preorder, extractVisitList_eq]
    simp

theorem extractVisitList_eq (base : GoUrl) (s : ExtractState) (cs : List HtmlNode) :
    extractVisitList base s cs = List.foldl (extractStep base) s (preorderList cs) := by
  match cs with
  | [] => rw [extractVisitList, preorderList]; rfl
  | c :: rest =>
    rw [extractVisitList, preorderList, extractVisitList_eq base _ rest,
      extractVisit_eq base s c, List.foldl_append]

end

theorem processLink_fixed (base : GoUrl) (s : ExtractState) (n : HtmlNode) :
    (processLink base s n).pageTitle = s.pageTitle ∧
      (processLink base s n).headingsCount = s.headingsCount ∧
      (processLink base s n).containsLoginForm = s.containsLoginForm ∧
      (processLink base s n).htmlVersion = s.htmlVersion := by
  rcases s with ⟨pt, hc, ic, ec, lf, hv, lt⟩
  simp only [processLink]
  split_ifs <;> try simp
  rcases resolveRef base (effectiveHref n.attrs) with _ | u
  · simp
  · simp only []
    split_ifs <;> simp

theorem processLink_skip (base : GoUrl) (s : ExtractState) (n : HtmlNode)
    (h : skipHref (effectiveHref n.attrs) = true) : processLink base s n = s := by
  simp only [processLink]
  by_cases h1 : (effectiveHref n.attrs != "") = true
  · rw [if_pos h1, if_pos h]
  · rw [if_neg h1]

/-! Field behavior of the element sub-steps. -/

theorem stepTitle_pageTitle (s : ExtractState) (n : HtmlNode)
    (h : (n.type == NodeType.element) = true) :
    (stepTitle s n).pageTitle = if isTitleWithText n then titleTextOf n else s.pageTitle := by
  cases n with
  | node t a d as cs =>
    simp only [HtmlNode.type] at h
    rcases cs with _ | ⟨c, rest⟩ <;>
      simp only [stepTitle, isTitleWithText, titleTextOf, HtmlNode.dataAtom, HtmlNode.children,
        HtmlNode.type] <;>
      split_ifs <;> simp_all

theorem stepTitle_fixed (s : ExtractState) (n : HtmlNode) :
    (stepTitle s n).headingsCount = s.headingsCount ∧
      (stepTitle s n).internalLinksCount = s.internalLinksCount ∧
      (stepTitle s n).externalLinksCount = s.externalLinksCount ∧
      (stepTitle s n).containsLoginForm = s.containsLoginForm ∧
      (stepTitle s n).htmlVersion = s.htmlVersion ∧
      (stepTitle s n).linksToTest = s.linksToTest := by
  cases n with
  | node t a d as cs =>
    rcases cs with _ | ⟨c, rest⟩ <;>
      simp only [stepTitle, HtmlNode.dataAtom, HtmlNode.children] <;>
      split_ifs <;> simp_all

theorem stepHeadings_fixed (s : ExtractState) (n : HtmlNode) :
    (stepHeadings s n).pageTitle = s.pageTitle ∧
      (stepHeadings s n).internalLinksCount = s.internalLinksCount ∧
      (stepHeadings s n).externalLinksCount = s.externalLinksCount ∧
      (stepHeadings s n).containsLoginForm = s.containsLoginForm ∧
      (stepHeadings s n).htmlVersion = s.htmlVersion ∧
      (stepHeadings s n).linksToTest = s.linksToTest := by
  simp only [stepHeadings]
  split_ifs <;> simp

theorem stepLinks_fixed (base : GoUrl) (s : ExtractState) (n : HtmlNode) :
    (stepLinks base s n).pageTitle = s.pageTitle ∧
      (stepLinks base s n).headingsCount = s.headingsCount ∧
      (stepLinks base s n).containsLoginForm = s.containsLoginForm ∧
      (stepLinks base s n).htmlVersion = s.htmlVersion := by
  simp only [stepLinks]
  split_ifs with h
  · exact processLink_fixed base s n
  · simp

theorem stepLinks_skip (base : GoUrl) (s : ExtractState) (n : HtmlNode)
    (h : skipHref (effectiveHref n.attrs) = true) : stepLinks base s n = s := by
  simp only [stepLinks]
  split_ifs with h1
  · exact processLink_skip base s n h
  · rfl

theorem stepLinks_nonlink (base : GoUrl) (s : ExtractState) (n : HtmlNode)
    (h : (n.dataAtom == "a" || n.dataAtom == "link") = false) : stepLinks base s n = s := by
  simp only [stepLinks]
  rw [if_neg (by simp [h])]

theorem stepForm_fixed (s : ExtractState) (n : HtmlNode) :
    (stepForm s n).pageTitle = s.pageTitle ∧
      (stepForm s n).headingsCount = s.headingsCount ∧
      (stepForm s n).internalLinksCount = s.internalLinksCount ∧
      (stepForm s n).externalLinksCount = s.externalLinksCount ∧
      (stepForm s n).htmlVersion = s.htmlVersion ∧
      (stepForm s n).linksToTest = s.linksToTest := by
  simp only [stepForm]
  split_ifs <;> simp

theorem stepDoctype_fixed (s : ExtractState) (n : HtmlNode) :
    (stepDoctype s n).pageTitle = s.pageTitle ∧
      (stepDoctype s n).headingsCount = s.headingsCount ∧
      (stepDoctype s n).internalLinksCount = s.internalLinksCount ∧
      (stepDoctype s n).externalLinksCount = s.externalLinksCount ∧
      (stepDoctype s n).containsLoginForm = s.containsLoginForm ∧
      (stepDoctype s n).linksToTest = s.linksToTest := by
  simp only [stepDoctype]
  rcases doctypeVersion n.data n.attrs with _ | v <;> simp

/-! Field behavior of the combined per-node step. -/

theorem extractStep_title (base : GoUrl) (s : ExtractState) (n : HtmlNode) :
    (extractStep base s n).pageTitle =
      if isTitleWithText n then titleTextOf n else s.pageTitle := by
  simp only [extractStep]
  by_cases hE : (n.type == NodeType.element) = true
  · rw [if_pos hE, (stepForm_fixed _ _).1, (stepLinks_fixed _ _ _).1, (stepHeadings_fixed _ _).1,
      stepTitle_pageTitle s n hE]
  · rw [if_neg hE]
    have hT : isTitleWithText n = false := by
      rcases hv : isTitleWithText n with _ | _
      · rfl
      · simp only [isTitleWithText, Bool.and_eq_true] at hv
        exact absurd hv.1.1 hE
    by_cases hD : (n.type == NodeType.doctype) = true
    · rw [if_pos hD, (stepDoctype_fixed _ _).1,
        if_neg (show ¬(isTitleWithText n = true) by simp [hT])]
    · rw [if_neg hD, if_neg (show ¬(isTitleWithText n = true) by simp [hT])]

theorem extractStep_version (base : GoUrl) (s : ExtractState) (n : HtmlNode)
    (h : (n.type == NodeType.doctype) = false) :
    (extractStep base s n).htmlVersion = s.htmlVersion := by
  simp only [extractStep]
  split_ifs with h1 h2
  · rw [(stepForm_fixed _ _).2.2.2.2.1, (stepLinks_fixed _ _ _).2.2.2,
      (stepHeadings_fixed _ _).2.2.2.2.1, (stepTitle_fixed _ _).2.2.2.2.1]
  · exact absurd h2 (by simp [h])
  · rfl

theorem extractStep_links_skip (base : GoUrl) (s : ExtractState) (n : HtmlNode)
    (h : (!isLinkNode n || skipHref (effectiveHref n.attrs)) = true) :
    (extractStep base s n).internalLinksCount = s.internalLinksCount ∧
      (extractStep base s n).externalLinksCount = s.externalLinksCount ∧
      (extractStep base s n).linksToTest = s.linksToTest := by
  simp only [extractStep]
  split_ifs with h1 h2
  · have hid : stepLinks base (stepHeadings (stepTitle s n) n) n =
        stepHeadings (stepTitle s n) n := by
      by_cases hskip : skipHref (effectiveHref n.attrs) = true
      · exact stepLinks_skip base _ n hskip
      · have hnl : isLinkNode n = false := by
          rcases hl : isLinkNode n with _ | _
          · rfl
          · rw [Bool.not_eq_true] at hskip
            rw [hl, hskip] at h
            simp at h
        have : (n.dataAtom == "a" || n.dataAtom == "link") = false := by
          simp only [isLinkNode, h1, Bool.true_and] at hnl
          exact hnl
        exact stepLinks_nonlink base _ n this
    rw [hid]
    exact ⟨by rw [(stepForm_fixed _ _).2.2.1, (stepHeadings_fixed _ _).2.1,
        (stepTitle_fixed _ _).2.1],
      by rw [(stepForm_fixed _ _).2.2.2.1, (stepHeadings_fixed _ _).2.2.1,
        (stepTitle_fixed _ _).2.2.1],
      by rw [(stepForm_fixed _ _).2.2.2.2.2, (stepHeadings_fixed _ _).2.2.2.2.2,
        (stepTitle_fixed _ _).2.2.2.2.2]⟩
  · exact ⟨(stepDoctype_fixed _ _).2.2.1, (stepDoctype_fixed _ _).2.2.2.1,
      (stepDoctype_fixed _ _).2.2.2.2.2⟩
  · exact ⟨rfl, rfl, rfl⟩

/-! Traversal-level characterizations. -/

theorem foldl_version (base : GoUrl) (s : ExtractState) (l : List HtmlNode)
    (h : l.all (fun n => !(n.type == NodeType.doctype)) = true) :
    (List.foldl (extractStep base) s l).htmlVersion = s.htmlVersion := by
  induction l generalizing s with
  | nil => rfl
  | cons x xs ih =>
    simp only [List.all_cons, Bool.and_eq_true] at h
    rw [List.foldl_cons, ih _ h.2, extractStep_version base s x (by simpa using h.1)]

theorem foldl_title (base : GoUrl) (s : ExtractState) (l : List HtmlNode) :
    (List.foldl (extractStep base) s l).pageTitle =
      (match (l.filter isTitleWithText).getLast? with
       | some n => titleTextOf n
       | none => s.pageTitle) := by
  induction l using List.reverseRecOn with
  | nil => rfl
  | append_singleton xs x ih =>
    rw [List.foldl_append, List.foldl_cons, List.foldl_nil, extractStep_title,
      List.filter_append]
    by_cases hx : isTitleWithText x = true
    · rw [if_pos hx]
      have hlast : (xs.filter isTitleWithText ++ [x].filter isTitleWithText).getLast? =
          some x := by
        simp [List.filter_cons, hx]
      rw [hlast]
    · rw [if_neg hx, ih]
      have hfx : [x].filter isTitleWithText = [] := by
        simp [List.filter_cons, hx]
      rw [hfx, List.append_nil]

theorem foldl_links (base : GoUrl) (s : ExtractState) (l : List HtmlNode)
    (h : l.all (fun n => !isLinkNode n || skipHref (effectiveHref n.attrs)) = true) :
    (List.foldl (extractStep base) s l).internalLinksCount = s.internalLinksCount ∧
      (List.foldl (extractStep base) s l).externalLinksCount = s.externalLinksCount ∧
      (List.foldl (extractStep base) s l).linksToTest = s.linksToTest := by
  induction l generalizing s with
  | nil => exact ⟨rfl, rfl, rfl⟩
  | cons x xs ih =>
    simp only [List.all_cons, Bool.and_eq_true] at h
    obtain ⟨e1, e2, e3⟩ := extractStep_links_skip base s x h.1
    obtain ⟨i1, i2, i3⟩ := ih (extractStep base s x) h.2
    exact ⟨by rw [List.foldl_cons, i1, e1], by rw [List.foldl_cons, i2, e2],
      by rw [List.foldl_cons, i3, e3]⟩

/-! ## Claim C5 -/

/-- C5 (counterexample): in a document with two title elements, the
recorded title is the trimmed text of the second one, not the first: the
traversal overwrites `result.PageTitle` on each title element instead of
keeping the first occurrence. -/
theorem pageTitle_first_counterexample :
    firstTitleText cTwoTitleDoc = "First Title" ∧
      (analyzeDocument cBase cTwoTitleDoc).pageTitle = "Second Title" ∧
      (analyzeDocument cBase cTwoTitleDoc).pageTitle ≠ firstTitleText cTwoTitleDoc := by
  decide

/-- C5 (amended): for every document, the report's title equals the
trimmed text of the LAST title element with a text child in document
order (later titles overwrite earlier ones); the title is empty when no
such element exists. -/
theorem pageTitle_eq_lastTitle (base : GoUrl) (doc : HtmlNode) :
    (analyzeDocument base doc).pageTitle = lastTitleText doc := by
  have h1 : (analyzeDocument base doc).pageTitle =
      (extractVisit base initExtractState doc).pageTitle := by
    simp only [analyzeDocument]
    split_ifs <;> rfl
  rw [h1, extractVisit_eq, foldl_title]
  unfold lastTitleText
  rcases ((preorder doc).filter isTitleWithText).getLast? with _ | n <;> rfl

/-! ## Claim C6 -/

/-- C6: for every document containing no doctype node, the version label
is the fallback value "Unknown or No Doctype", which is non-empty: the
traversal never writes `HTMLVersion` except at a doctype node, and the
post-traversal fallback replaces the empty string. -/
theorem noDoctype_fallback_version (base : GoUrl) (doc : HtmlNode)
    (h : hasNoDoctype doc = true) :
    (analyzeDocument base doc).htmlVersion = "Unknown or No Doctype" ∧
      (analyzeDocument base doc).htmlVersion ≠ "" := by
  have hv : (extractVisit base initExtractState doc).htmlVersion = "" := by
    rw [extractVisit_eq]
    exact foldl_version base initExtractState (preorder doc) h
  constructor
  · simp [analyzeDocument, hv]
  · simp [analyzeDocument, hv]

/-- C6 (witness): the no-doctype fallback at a concrete document. -/
theorem noDoctype_fallback_version_witness :
    hasNoDoctype cNoDoctypeDoc = true ∧
      (analyzeDocument cBase cNoDoctypeDoc).htmlVersion = "Unknown or No Doctype" :=
  ⟨by decide, (noDoctype_fallback_version cBase cNoDoctypeDoc (by decide)).1⟩

/-! ## Claim C7 -/

/-- C7: an anchor/link element whose effective href the analyzer
excludes (empty after trimming, fragment-only, or a
javascript:/mailto:/tel: target) contributes nothing to the internal
count, the external count, or the probe list: at every accumulated
traversal state — hence at the link's position in any document, mixed
or not — the per-node step leaves all three fields untouched. -/
theorem skippableLink_excluded (base : GoUrl) (s : ExtractState) (n : HtmlNode)
    (_h1 : isLinkNode n = true) (h2 : skipHref (effectiveHref n.attrs) = true) :
    (extractStep base s n).internalLinksCount = s.internalLinksCount ∧
      (extractStep base s n).externalLinksCount = s.externalLinksCount ∧
      (extractStep base s n).linksToTest = s.linksToTest :=
  extractStep_links_skip base s n (by simp [h2])

/-- C7 (witness): the exclusion applied — at a mid-traversal state with
links already counted and collected — to one element of each excluded
category, next to a mixed document in which the two countable links are
counted and probed while the five excluded ones are not. -/
theorem skippableLink_excluded_witness :
    ((extractStep cBase cMidState (mkAnchor "#frag")).internalLinksCount =
          cMidState.internalLinksCount ∧
        (extractStep cBase cMidState (mkAnchor "#frag")).externalLinksCount =
          cMidState.externalLinksCount ∧
        (extractStep cBase cMidState (mkAnchor "#frag")).linksToTest =
          cMidState.linksToTest) ∧
      ((extractStep cBase cMidState (mkAnchor "mailto:a@b.example")).internalLinksCount =
          cMidState.internalLinksCount ∧
        (extractStep cBase cMidState (mkAnchor "mailto:a@b.example")).externalLinksCount =
          cMidState.externalLinksCount ∧
        (extractStep cBase cMidState (mkAnchor "mailto:a@b.example")).linksToTest =
          cMidState.linksToTest) ∧
      ((extractStep cBase cMidState (mkAnchor "javascript:void(0)")).internalLinksCount =
          cMidState.internalLinksCount ∧
        (extractStep cBase cMidState (mkAnchor "javascript:void(0)")).externalLinksCount =
          cMidState.externalLinksCount ∧
        (extractStep cBase cMidState (mkAnchor "javascript:void(0)")).linksToTest =
          cMidState.linksToTest) ∧
      ((extractStep cBase cMidState (mkAnchor "tel:+123")).internalLinksCount =
          cMidState.internalLinksCount ∧
        (extractStep cBase cMidState (mkAnchor "tel:+123")).externalLinksCount =
          cMidState.externalLinksCount ∧
        (extractStep cBase cMidState (mkAnchor "tel:+123")).linksToTest =
          cMidState.linksToTest) ∧
      ((extractStep cBase cMidState (mkAnchor "   ")).internalLinksCount =
          cMidState.internalLinksCount ∧
        (extractStep cBase cMidState (mkAnchor "   ")).externalLinksCount =
          cMidState.externalLinksCount ∧
        (extractStep cBase cMidState (mkAnchor "   ")).linksToTest =
          cMidState.linksToTest) ∧
      ((analyzeDocument cBase cMixedDoc).internalLinksCount = 1 ∧
        (analyzeDocument cBase cMixedDoc).externalLinksCount = 1 ∧
        (analyzeDocument cBase cMixedDoc).linksToTest =
          ["http://example.com/in", "http://other.example/x"]) :=
  ⟨skippableLink_excluded cBase cMidState (mkAnchor "#frag") (by decide) (by decide),
    skippableLink_excluded cBase cMidState (mkAnchor "mailto:a@b.example") (by decide)
      (by decide),
    skippableLink_excluded cBase cMidState (mkAnchor "javascript:void(0)") (by decide)
      (by decide),
    skippableLink_excluded cBase cMidState (mkAnchor "tel:+123") (by decide) (by decide),
    skippableLink_excluded cBase cMidState (mkAnchor "   ") (by decide) (by decide),
    by decide⟩

/-- Corollary at document level: when every anchor/link element of a
document carries an excluded href, nothing is counted and the probe
list stays empty. -/
theorem skipped_links_excluded (base : GoUrl) (doc : HtmlNode)
    (h : allLinksSkipped doc = true) :
    (analyzeDocument base doc).internalLinksCount = 0 ∧
      (analyzeDocument base doc).externalLinksCount = 0 ∧
      (analyzeDocument base doc).linksToTest = [] := by
  have h0 := foldl_links base initExtractState (preorder doc) h
  have hi : (extractVisit base initExtractState doc).internalLinksCount = 0 := by
    rw [extractVisit_eq]; exact h0.1
  have he : (extractVisit base initExtractState doc).externalLinksCount = 0 := by
    rw [extractVisit_eq]; exact h0.2.1
  have hl : (extractVisit base initExtractState doc).linksToTest = [] := by
    rw [extractVisit_eq]; exact h0.2.2
  refine ⟨?_, ?_, ?_⟩ <;> simp only [analyzeDocument] <;> split_ifs <;>
    simp [hi, he, hl]

/-- Instance of the document-level corollary: a document whose five
links are all excluded targets (fragment, mailto, javascript, tel,
whitespace-only). -/
theorem skipped_links_excluded_instance :
    allLinksSkipped cSkippedLinksDoc = true ∧
      (analyzeDocument cBase cSkippedLinksDoc).internalLinksCount = 0 ∧
      (analyzeDocument cBase cSkippedLinksDoc).externalLinksCount = 0 ∧
      (analyzeDocument cBase cSkippedLinksDoc).linksToTest = [] :=
  ⟨by decide, (skipped_links_excluded cBase cSkippedLinksDoc (by decide)).1,
    (skipped_links_excluded cBase cSkippedLinksDoc (by decide)).2.1,
    (skipped_links_excluded cBase cSkippedLinksDoc (by decide)).2.2⟩

/-! ## Claim C4 -/

theorem processLink_resolved (base : GoUrl) (s : ExtractState) (n : HtmlNode) (u : GoUrl)
    (h3 : skipHref (effectiveHref n.attrs) = false)
    (h4 : resolveRef base (effectiveHref n.attrs) = some u) :
    (processLink base s n).internalLinksCount =
        (if linkIsInternal base u then s.internalLinksCount + 1 else s.internalLinksCount) ∧
      (processLink base s n).externalLinksCount =
        (if linkIsInternal base u then s.externalLinksCount else s.externalLinksCount + 1) := by
  have hne : (effectiveHref n.attrs != "") = true := by
    simp only [skipHref, Bool.or_eq_false_iff] at h3
    simp [bne, h3.1.1.1.1]
  simp only [processLink]
  rw [if_pos hne, if_neg (show ¬(skipHref (effectiveHref n.attrs) = true) by simp [h3]), h4]
  by_cases hu : linkIsInternal base u = true
  · rw [if_pos hu]
    simp [hu]
  · rw [if_neg hu]
    simp only [Bool.not_eq_true] at hu
    simp [hu]

/-- C4 (counterexample): the host comparison is exact, not
case-insensitive.  With base page `http://example.com/page`, the link
`http://EXAMPLE.com/x` resolves to scheme `http` and host `EXAMPLE.com`,
equal to the base host under case-insensitive comparison, yet the
analyzer counts it as external, not internal. -/
theorem linkClassification_counterexample :
    resolveRef cBase "http://EXAMPLE.com/x" = some ⟨"http", "EXAMPLE.com", "/x"⟩ ∧
      toLowerS "EXAMPLE.com" = toLowerS cBase.host ∧
      "http" = cBase.scheme ∧
      (analyzeDocument cBase cUpperHostDoc).internalLinksCount = 0 ∧
      (analyzeDocument cBase cUpperHostDoc).externalLinksCount = 1 := by
  decide

/-- C4 (amended): a resolvable link is classified internal iff the
resolved URL's scheme equals the base scheme and the resolved host
equals the base host under EXACT (case-sensitive) string comparison;
otherwise external.  (Schemes are lowercased by URL parsing, so the
scheme comparison is insensitive to the case written in the document;
hosts are kept as written and compared exactly.) -/
theorem linkClassification_exact (base : GoUrl) (s : ExtractState) (n : HtmlNode) (u : GoUrl)
    (h1 : (n.type == NodeType.element) = true)
    (h2 : (n.dataAtom == "a" || n.dataAtom == "link") = true)
    (h3 : skipHref (effectiveHref n.attrs) = false)
    (h4 : resolveRef base (effectiveHref n.attrs) = some u) :
    ((extractStep base s n).internalLinksCount = s.internalLinksCount + 1 ↔
        u.scheme = base.scheme ∧ u.host = base.host) ∧
      ((extractStep base s n).externalLinksCount = s.externalLinksCount + 1 ↔
        ¬(u.scheme = base.scheme ∧ u.host = base.host)) := by
  have hs2 := stepTitle_fixed s n
  have hs3 := stepHeadings_fixed (stepTitle s n) n
  set s2 := stepHeadings (stepTitle s n) n with hs2def
  have hplink := processLink_resolved base s2 n u h3 h4
  have hform := stepForm_fixed (stepLinks base s2 n) n
  have hstep : extractStep base s n = stepForm (stepLinks base s2 n) n := by
    simp only [extractStep]
    rw [if_pos h1]
  have hint : (extractStep base s n).internalLinksCount =
      (if linkIsInternal base u then s.internalLinksCount + 1 else s.internalLinksCount) := by
    rw [hstep, hform.2.2.1]
    simp only [stepLinks]
    rw [if_pos h2]
    rw [hplink.1, hs3.2.1, hs2.2.1]
  have hext : (extractStep base s n).externalLinksCount =
      (if linkIsInternal base u then s.externalLinksCount else s.externalLinksCount + 1) := by
    rw [hstep, hform.2.2.2.1]
    simp only [stepLinks]
    rw [if_pos h2]
    rw [hplink.2, hs3.2.2.1, hs2.2.2.1]
  by_cases hu : linkIsInternal base u = true
  · have heq : u.scheme = base.scheme ∧ u.host = base.host := by
      simp only [linkIsInternal, Bool.and_eq_true, beq_iff_eq] at hu
      exact ⟨hu.2, hu.1⟩
    rw [if_pos hu] at hint hext
    constructor
    · exact ⟨fun _ => heq, fun _ => hint⟩
    · constructor
      · intro hc
        rw [hext] at hc
        omega
      · intro hc
        exact absurd heq hc
  · have hne2 : ¬(u.scheme = base.scheme ∧ u.host = base.host) := by
      intro hc
      have : linkIsInternal base u = true := by
        simp [linkIsInternal, hc.1, hc.2]
      exact absurd this hu
    rw [if_neg hu] at hint hext
    constructor
    · constructor
      · intro hc
        rw [hint] at hc
        omega
      · intro hc
        exact absurd hc hne2
    · exact ⟨fun _ => hne2, fun _ => hext⟩

/-- C4 (witness): the amended classification applied to a relative link
(internal: same scheme and host) and to an absolute link with a
different host (external). -/
theorem linkClassification_exact_witness :
    (extractStep cBase initExtractState (mkAnchor "/in")).internalLinksCount =
        initExtractState.internalLinksCount + 1 ∧
      (extractStep cBase initExtractState
          (mkAnchor "http://other.example/x")).externalLinksCount =
        initExtractState.externalLinksCount + 1 :=
  ⟨(linkClassification_exact cBase initExtractState (mkAnchor "/in")
        ⟨"http", "example.com", "/in"⟩ (by decide) (by decide) (by decide) (by decide)).1.mpr
      ⟨rfl, rfl⟩,
    (linkClassification_exact cBase initExtractState (mkAnchor "http://other.example/x")
        ⟨"http", "other.example", "/x"⟩ (by decide) (by decide) (by decide) (by decide)).2.mpr
      (by decide)⟩

/-! ## Claim C2 -/

/-- C2: when the HEAD probe of a link yields an HTTP response: a status
at least 400 and different from 405 produces exactly the one record with
that status and its status text and no further request; a status below
400 produces no record; a 405 status triggers exactly one GET fallback,
and when the GET yields a response a record is produced iff its status
is at least 400, carrying that status. -/
theorem probeLink_http_response (l : String) (env : NetEnv) (r : HttpResponse)
    (hHead : env .head = .ok r) :
    (400 ≤ r.statusCode → r.statusCode ≠ 405 →
        probeLink l env = ([.head], some ⟨l, r.statusCode, r.status⟩)) ∧
      (r.statusCode < 400 → probeLink l env = ([.head], none)) ∧
      (r.statusCode = 405 →
        (probeLink l env).1 = [.head, .get] ∧
          ∀ r2 : HttpResponse, env .get = .ok r2 →
            (probeLink l env).2 =
              (if 400 ≤ r2.statusCode then some ⟨l, r2.statusCode, r2.status⟩ else none)) := by
  simp only [probeLink, hHead]
  refine ⟨?_, ?_, ?_⟩
  · intro hge h405
    rw [if_neg (show ¬((r.statusCode == 405) = true) by simp [h405]),
      if_pos (show 400 ≤ r.statusCode from hge)]
  · intro hlt
    rw [if_neg (show ¬((r.statusCode == 405) = true) by simp; omega),
      if_neg (show ¬(400 ≤ r.statusCode) by omega)]
  · intro h405
    rw [if_pos (show (r.statusCode == 405) = true by simp [h405])]
    rcases hget : env .get with e2 | r2
    · exact ⟨rfl, fun r3 hr3 => nomatch hr3⟩
    · exact ⟨rfl, fun r3 hr3 => by cases hr3; rfl⟩

/-- C2 (witness): the theorem applied to a 404 HEAD response, a 200 HEAD
response, and a 405 HEAD response whose GET fallback returns 200. -/
theorem probeLink_http_response_witness :
    probeLink "u" (fun m => match m with
        | .head => .ok ⟨404, "404 Not Found"⟩
        | .get => .ok ⟨200, "200 OK"⟩) = ([.head], some ⟨"u", 404, "404 Not Found"⟩) ∧
      probeLink "u" (fun _ => .ok ⟨200, "200 OK"⟩) = ([.head], none) ∧
      (probeLink "u" (fun m => match m with
          | .head => .ok ⟨405, "405 Method Not Allowed"⟩
          | .get => .ok ⟨200, "200 OK"⟩)).2 = none :=
  ⟨(probeLink_http_response "u" _ ⟨404, "404 Not Found"⟩ rfl).1 (by decide) (by decide),
    (probeLink_http_response "u" (fun _ => .ok ⟨200, "200 OK"⟩) ⟨200, "200 OK"⟩ rfl).2.1
      (by decide),
    by
      have h := ((probeLink_http_response "u" (fun m => match m with
          | .head => .ok ⟨405, "405 Method Not Allowed"⟩
          | .get => .ok ⟨200, "200 OK"⟩) ⟨405, "405 Method Not Allowed"⟩ rfl).2.2 rfl).2
        ⟨200, "200 OK"⟩ rfl
      rw [h]
      decide⟩

/-! ## Claim C3 -/

/-- C3 (counterexample): a HEAD request failing with a DNS error (whose
text contains neither "timeout" nor "refused") does NOT go unretried:
the checker issues a GET fallback before recording the link with status
0, so the GET retry is not reserved for HEAD-method rejection. -/
theorem probeLink_dns_counterexample :
    (probeLink "http://nohost.example/"
          (fun _ => .error "dial tcp: lookup nohost.example: no such host")).1 =
        [.head, .get] ∧
      (probeLink "http://nohost.example/"
          (fun _ => .error "dial tcp: lookup nohost.example: no such host")).1 ≠ [.head] ∧
      (probeLink "http://nohost.example/"
          (fun _ => .error "dial tcp: lookup nohost.example: no such host")).2 =
        some ⟨"http://nohost.example/", 0, "dial tcp: lookup nohost.example: no such host"⟩ := by
  decide

/-- C3 (amended): when the HEAD request fails at the network level, the
behavior depends on the error text: if it contains "timeout" or
"refused" (timeouts and connection refusals), the link is recorded with
status 0 and the error text and no further request is issued; for any
other failure text (e.g. DNS errors), one GET fallback is issued — in
addition to the HTTP-405 fallback case — and the record is determined by
the GET outcome (status 0 with the GET's error text on network failure,
the GET status if at least 400, nothing otherwise). -/
theorem probeLink_head_neterr (l : String) (env : NetEnv) (e : String)
    (hHead : env .head = .error e) :
    ((containsS (toLowerS e) "timeout" || containsS (toLowerS e) "refused") = true →
        probeLink l env = ([.head], some ⟨l, 0, e⟩)) ∧
      ((containsS (toLowerS e) "timeout" || containsS (toLowerS e) "refused") = false →
        (probeLink l env).1 = [.head, .get] ∧
          (probeLink l env).2 =
            (match env .get with
             | .error e2 => some ⟨l, 0, e2⟩
             | .ok r2 =>
               if 400 ≤ r2.statusCode then some ⟨l, r2.statusCode, r2.status⟩ else none)) := by
  simp only [probeLink, hHead]
  constructor
  · intro hc
    rw [if_pos hc]
  · intro hc
    rw [if_neg (by simp [hc])]
    rcases hget : env .get with e2 | r2 <;> exact ⟨rfl, rfl⟩

/-- C3 (witness): the amended theorem applied to a timed-out HEAD, a
refused HEAD, and a DNS-failing HEAD whose GET fails the same way. -/
theorem probeLink_head_neterr_witness :
    probeLink "u" (fun _ => .error "Head http://u: context deadline exceeded (Client.Timeout)") =
        ([.head], some ⟨"u", 0, "Head http://u: context deadline exceeded (Client.Timeout)"⟩) ∧
      probeLink "u" (fun _ => .error "dial tcp 127.0.0.1:81: connect: connection refused") =
        ([.head], some ⟨"u", 0, "dial tcp 127.0.0.1:81: connect: connection refused"⟩) ∧
      (probeLink "u" (fun _ => .error "no such host")).1 = [.head, .get] :=
  ⟨(probeLink_head_neterr "u" _ "Head http://u: context deadline exceeded (Client.Timeout)"
        rfl).1 (by decide),
    (probeLink_head_neterr "u" _ "dial tcp 127.0.0.1:81: connect: connection refused" rfl).1
      (by decide),
    ((probeLink_head_neterr "u" _ "no such host" rfl).2 (by decide)).1⟩

/-! ## Claim C8 -/

/-- C8: a fetched page whose Content-Type does not contain "text/html"
(case-insensitively) makes the analysis fail with the typed error
carrying the response's status code and a content-type message, and no
report is produced. -/
theorem nonHtml_content_fails (pageURL : String) (st : Nat) (stTxt ct : String)
    (body : BodyOutcome) (envs : String → NetEnv) (h1 : st < 400)
    (h2 : containsS (toLowerS ct) "text/html" = false) :
    FetchAndAnalyze pageURL (.response st stTxt ct body) envs =
      (none, some ⟨"URL is not an HTML page. Content-Type: " ++ ct, st⟩) := by
  simp only [FetchAndAnalyze]
  rw [if_neg (by omega), if_pos (by simp [h2])]

/-- C8 (witness): an application/json page with status 200 fails with
the content-type error and no report. -/
theorem nonHtml_content_fails_witness :
    FetchAndAnalyze "http://example.com/"
        (.response 200 "200 OK" "application/json" (.parsed cNoDoctypeDoc))
        (fun _ _ => .ok ⟨200, "200 OK"⟩) =
      (none, some ⟨"URL is not an HTML page. Content-Type: application/json", 200⟩) :=
  nonHtml_content_fails "http://example.com/" 200 "200 OK" "application/json"
    (.parsed cNoDoctypeDoc) (fun _ _ => .ok ⟨200, "200 OK"⟩) (by omega) (by decide)

/-! ## Claim C10 -/

/-- C10: `FetchAndAnalyze` returns exactly one of a result with no
error, or no result with an error; and a network-level fetch failure
yields the typed error with status code 0 (no HTTP status applies). -/
theorem fetchAndAnalyze_exclusive (pageURL : String) (fetch : FetchOutcome)
    (envs : String → NetEnv) :
    (((FetchAndAnalyze pageURL fetch envs).1.isSome = true ∧
        (FetchAndAnalyze pageURL fetch envs).2 = none) ∨
      ((FetchAndAnalyze pageURL fetch envs).1 = none ∧
        (FetchAndAnalyze pageURL fetch envs).2.isSome = true)) ∧
      (∀ msg, fetch = FetchOutcome.netErr msg →
        (FetchAndAnalyze pageURL fetch envs).2 = some ⟨"Failed to fetch URL: " ++ msg, 0⟩) := by
  constructor
  · cases fetch with
    | netErr m => exact Or.inr ⟨rfl, rfl⟩
    | response st stTxt ct body =>
      simp only [FetchAndAnalyze]
      split_ifs
      · exact Or.inr ⟨rfl, rfl⟩
      · exact Or.inr ⟨rfl, rfl⟩
      · cases body with
        | parseFail m => exact Or.inr ⟨rfl, rfl⟩
        | parsed doc =>
          rcases hp : parseUrl pageURL with _ | baseDomain <;> simp [hp]
  · intro msg h
    cases fetch with
    | netErr m =>
      cases h
      rfl
    | response st stTxt ct body => cases h

/-- C10 (witness): the network-error clause at a concrete failed
fetch. -/
theorem fetchAndAnalyze_exclusive_witness :
    (FetchAndAnalyze "http://example.com/" (.netErr "dial tcp: connection refused")
        (fun _ _ => .ok ⟨200, "200 OK"⟩)).2 =
      some ⟨"Failed to fetch URL: dial tcp: connection refused", 0⟩ :=
  (fetchAndAnalyze_exclusive "http://example.com/" (.netErr "dial tcp: connection refused")
      (fun _ _ => .ok ⟨200, "200 OK"⟩)).2 "dial tcp: connection refused" rfl

end WebAnalyzer
